import Mathlib

/-!
Verification of `mongodb-agent-app-rag`: a LangGraph MongoDB agent with
schema RAG (Voyage embeddings + Atlas vector search).

The development shallowly embeds the program's pure logic:
  * `src/tools/query_tools.py` : `_serialize`, `execute_find`, `execute_aggregation`
  * `src/tools/schema_tools.py`: `list_collections`, `get_collection_schema`
  * `src/rag/embeddings.py`   : `get_embedding`, `get_embeddings`
  * `src/rag/retrieval.py`    : `_vector_search`, `retrieve_schema_context`
  * `src/agent.py`            : `_get_last_user_text`, `agent_node`'s system
    prompt, the answer extraction of `run_agent`, and the agent loop.

External effects (the MongoDB driver, the Voyage client, `json.loads`) are
oracles passed as function arguments; a Python `try`/`except` around an
oracle call becomes an `Except String` result, so every embedded function is
total and an exception surfaces only as the error text the code formats.
Embedding vectors are opaque payloads to every property proved here, so their
entries are modelled as `Int`.
-/

/-- A single quote character, used by the Python `repr`/message strings. -/
def pyq : String := String.singleton (Char.ofNat 39)

/-- JSON-like MongoDB values (documents, pipeline stages, query results).
`oid s` models `bson.ObjectId` carrying its hex string form `s` (Python's
`str(ObjectId)`); numbers carry `Int` (float payloads are never inspected by
the code under verification). Objects are key/value lists, preserving the
insertion order Python dicts have. -/
inductive Json where
  | null
  | bool (b : Bool)
  | num (n : Int)
  | str (s : String)
  | oid (s : String)
  | arr (xs : List Json)
  | obj (kvs : List (String × Json))
deriving Repr, Inhabited

/-- Python truthiness of a value (`bool(v)`): `None`, `False`, `0`, `""`,
`[]`, `{}` are falsy; an `ObjectId` is always truthy. -/
def Json.truthy : Json → Bool
  | .null => false
  | .bool b => b
  | .num n => n != 0
  | .str s => s != ""
  | .oid _ => true
  | .arr xs => !xs.isEmpty
  | .obj kvs => !kvs.isEmpty

/-- Python `d.get(k)`: `some v` when key `k` is present with value `v`,
`none` when absent (dict keys are unique, so the first match is the match). -/
def Json.get? (d : Json) (k : String) : Option Json :=
  match d with
  | .obj kvs => (kvs.find? (fun kv => kv.1 == k)).map (fun kv => kv.2)
  | _ => none

mutual
/-- `query_tools._serialize`: `ObjectId -> str(ObjectId)`, recursing through
dicts and lists; everything else returned unchanged. -/
def serialize : Json → Json
  | .oid s => .str s
  | .obj kvs => .obj (serializeKVs kvs)
  | .arr xs => .arr (serializeList xs)
  | .null => .null
  | .bool b => .bool b
  | .num n => .num n
  | .str s => .str s

def serializeList : List Json → List Json
  | [] => []
  | x :: xs => serialize x :: serializeList xs

def serializeKVs : List (String × Json) → List (String × Json)
  | [] => []
  | kv :: kvs => (kv.1, serialize kv.2) :: serializeKVs kvs
end

/-- True of values that are neither an identifier nor a container: the ones
the serialization must leave unchanged. -/
def Json.isAtom : Json → Prop
  | .null => True
  | .bool _ => True
  | .num _ => True
  | .str _ => True
  | .oid _ => False
  | .arr _ => False
  | .obj _ => False

mutual
/-- The specification's serialization relation, written from the spec's words:
every `ObjectId` becomes its string form, recursively through arbitrarily
nested mappings and sequences; any other (non-container) value is unchanged;
containers are related elementwise. -/
inductive SerRel : Json → Json → Prop where
  | oid (s : String) : SerRel (.oid s) (.str s)
  | atom (v : Json) : v.isAtom → SerRel v v
  | arr {xs ys : List Json} : SerRelList xs ys → SerRel (.arr xs) (.arr ys)
  | obj {kvs kvs' : List (String × Json)} : SerRelKVs kvs kvs' →
      SerRel (.obj kvs) (.obj kvs')

/-- Elementwise `SerRel` on sequences (same length, same order). -/
inductive SerRelList : List Json → List Json → Prop where
  | nil : SerRelList [] []
  | cons {x y : Json} {xs ys : List Json} : SerRel x y → SerRelList xs ys →
      SerRelList (x :: xs) (y :: ys)

/-- Elementwise `SerRel` on mapping entries: the key of every entry is kept
in place and only the value is rewritten. -/
inductive SerRelKVs : List (String × Json) → List (String × Json) → Prop where
  | nil : SerRelKVs [] []
  | cons (k : String) {v w : Json} {kvs kvs' : List (String × Json)} :
      SerRel v w → SerRelKVs kvs kvs' → SerRelKVs ((k, v) :: kvs) ((k, w) :: kvs')
end

mutual
theorem serRel_serialize : ∀ v : Json, SerRel v (serialize v)
  | .oid s => SerRel.oid s
  | .null => SerRel.atom .null trivial
  | .bool b => SerRel.atom (.bool b) trivial
  | .num n => SerRel.atom (.num n) trivial
  | .str s => SerRel.atom (.str s) trivial
  | .arr xs => SerRel.arr (serRelList_serialize xs)
  | .obj kvs => SerRel.obj (serRelKVs_serialize kvs)

theorem serRelList_serialize : ∀ xs : List Json, SerRelList xs (serializeList xs)
  | [] => SerRelList.nil
  | x :: xs => SerRelList.cons (serRel_serialize x) (serRelList_serialize xs)

theorem serRelKVs_serialize : ∀ kvs : List (String × Json),
    SerRelKVs kvs (serializeKVs kvs)
  | [] => SerRelKVs.nil
  | (k, v) :: kvs => SerRelKVs.cons k (serRel_serialize v) (serRelKVs_serialize kvs)
end

theorem serRelList_length {xs ys : List Json} (h : SerRelList xs ys) :
    ys.length = xs.length := by
  induction xs generalizing ys with
  | nil => cases h; rfl
  | cons x xs ih => cases h with | cons hx hxs => simpa using ih hxs

theorem serRelKVs_keys {kvs kvs' : List (String × Json)} (h : SerRelKVs kvs kvs') :
    kvs'.map Prod.fst = kvs.map Prod.fst := by
  induction kvs generalizing kvs' with
  | nil => cases h; rfl
  | cons kv kvs ih => cases h with | cons k hv hkvs => simpa using ih hkvs

/-- C6: recursive identifier stringification — the serialization used by
`execute_find` and `execute_aggregation` relates every input value to its
output by the spec's relation (every `ObjectId` becomes its string form,
recursively through arbitrarily nested dicts and lists; every other value is
unchanged), and the serialization preserves structure: serialized lists have
the input's length and serialized dicts the input's keys in order. -/
theorem serialize_meets_spec :
    (∀ v : Json, SerRel v (serialize v)) ∧
    (∀ xs : List Json, (serializeList xs).length = xs.length) ∧
    (∀ kvs : List (String × Json),
      (serializeKVs kvs).map Prod.fst = kvs.map Prod.fst) :=
  ⟨serRel_serialize, fun xs => serRelList_length (serRelList_serialize xs),
    fun kvs => serRelKVs_keys (serRelKVs_serialize kvs)⟩

/-! ### Query tools (`src/tools/query_tools.py`) -/

mutual
/-- Model of Python `json.dumps(serialized, indent=2, default=str)`: a total
JSON renderer. Its exact formatting (indentation, escaping) is opaque to
every property proved below — each property only compares renderings of
values — so a compact rendering is used; `default=str` shows up as the
`oid` case. -/
def dumps : Json → String
  | .null => "null"
  | .bool b => if b then "true" else "false"
  | .num n => toString n
  | .str s => "\"" ++ s ++ "\""
  | .oid s => "\"" ++ s ++ "\""
  | .arr xs => "[" ++ dumpsList xs ++ "]"
  | .obj kvs => "\x7b" ++ dumpsKVs kvs ++ "\x7d"

def dumpsList : List Json → String
  | [] => ""
  | [x] => dumps x
  | x :: xs => dumps x ++ ", " ++ dumpsList xs

def dumpsKVs : List (String × Json) → String
  | [] => ""
  | [kv] => "\"" ++ kv.1 ++ "\": " ++ dumps kv.2
  | kv :: kvs => "\"" ++ kv.1 ++ "\": " ++ dumps kv.2 ++ ", " ++ dumpsKVs kvs
end

/-- The text of the `AttributeError` a Python non-dict raises on `.get`;
the exact wording is a modelling constant (the code only ever embeds it in
the formatted error result). -/
def attrErr : String :=
  "AttributeError: object has no attribute " ++ pyq ++ "get" ++ pyq

/-- Python `v is None` for the modelled values. -/
def jsonIsNull : Json → Bool
  | .null => true
  | _ => false

/-- `any(s.get("$limit") is not None for s in pipeline)`: scans the stages in
order, stopping at the first stage whose `$limit` key holds a non-`None`
value; a non-dict stage reached by the scan raises (`.get` is missing). -/
def anyHasLimit : List Json → Except String Bool
  | [] => .ok false
  | s :: rest =>
    match s with
    | .obj kvs =>
      match (Json.obj kvs).get? "$limit" with
      | some v => if jsonIsNull v then anyHasLimit rest else .ok true
      | none => anyHasLimit rest
    | _ => .error attrErr

/-- Rendering of the driver call shared by `execute_aggregation`'s success
and failure paths: a cursor success is `_serialize`d and dumped, a driver
exception becomes the formatted error text. -/
def renderAggResult : Except String (List Json) → String
  | .error e => "Error executing aggregation: " ++ e
  | .ok docs => dumps (serialize (.arr docs))

/-- `execute_aggregation(collection_name, pipeline_json, limit_results=100)`.
`parse` is the `json.loads` oracle; `aggregate` is the
`db[collection].aggregate` oracle (an `.error` is any driver exception). -/
def execute_aggregation (parse : String → Except String Json)
    (aggregate : String → List Json → Except String (List Json))
    (collectionName pipelineJson : String) (limitResults : Int) : String :=
  match parse pipelineJson with
  | .error e => "Invalid JSON pipeline: " ++ e
  | .ok p =>
    match p with
    | .arr stages =>
      match anyHasLimit stages with
      | .error e => "Error executing aggregation: " ++ e
      | .ok hasLimit =>
        let pipeline :=
          if !hasLimit && limitResults != 0 then
            stages ++ [Json.obj [("$limit", Json.num limitResults)]]
          else stages
        renderAggResult (aggregate collectionName pipeline)
    | _ => "pipeline_json must be a JSON array of stages."

/-- Rendering of the driver call shared by `execute_find`'s success and
failure paths. -/
def renderFindResult : Except String (List Json) → String
  | .error e => "Error executing find: " ++ e
  | .ok docs => dumps (serialize (.arr docs))

/-- Python `s.strip()`: drop whitespace from both ends (structural on the
character list, so it evaluates by kernel reduction). -/
def pyStrip (s : String) : String :=
  String.mk
    (((s.data.dropWhile Char.isWhitespace).reverse.dropWhile
      Char.isWhitespace).reverse)

/-- `execute_find(collection_name, filter_json, projection_json="{}",
limit=50)`. A blank (whitespace-only) filter or projection string is not
parsed at all and stands for the empty dict; `find` is the
`db[collection].find(...).limit(...)` oracle, receiving `none` for the
projection when the parsed projection dict is falsy (`proj if proj else
None`). -/
def execute_find (parse : String → Except String Json)
    (find : String → Json → Option Json → Int → Except String (List Json))
    (collectionName filterJson projectionJson : String) (limit : Int) : String :=
  match (if pyStrip filterJson != "" then parse filterJson else .ok (.obj [])) with
  | .error e => "Invalid JSON in filter or projection: " ++ e
  | .ok filt =>
    match (if pyStrip projectionJson != "" then parse projectionJson else .ok (.obj [])) with
    | .error e => "Invalid JSON in filter or projection: " ++ e
    | .ok proj =>
      match find collectionName filt (if proj.truthy then some proj else none) limit with
      | .error e => "Error executing find: " ++ e
      | .ok docs => dumps (serialize (.arr docs))

/-! ### Schema tools (`src/tools/schema_tools.py`) -/

/-- `list_collections()`; `listNames` is the outcome of
`db.list_collection_names()`. `', '.join(names) or 'None'` prints `None`
exactly when the joined string is empty. -/
def list_collections (listNames : Except String (List String)) : String :=
  match listNames with
  | .error e => "Error listing collections: " ++ e
  | .ok names =>
    let joined := String.intercalate ", " names
    "Collections in database " ++ pyq ++ "inferyx" ++ pyq ++ ": " ++
      (if joined != "" then joined else "None")

/-- Python `type(v).__name__` for the modelled value universe. -/
def pyTypeName : Json → String
  | .null => "NoneType"
  | .bool _ => "bool"
  | .num _ => "int"
  | .str _ => "str"
  | .oid _ => "ObjectId"
  | .arr _ => "list"
  | .obj _ => "dict"

/-- The f-string rendering of a Python list of key strings,
`['a', 'b', ...]`. -/
def pyReprStrList (ks : List String) : String :=
  "[" ++ String.intercalate ", " (ks.map (fun k => pyq ++ k ++ pyq)) ++ "]"

/-- The inferred type label of one field value: base type name, plus a
preview of the first ≤8 keys for a dict, plus the `list of dicts` marker
with the first ≤5 keys of the head element for a non-empty list of dicts. -/
def typeLabel (v : Json) : String :=
  match v with
  | .obj kvs =>
    pyTypeName (.obj kvs) ++ " (keys: " ++
      pyReprStrList ((kvs.map Prod.fst).take 8) ++ ")"
  | .arr (first :: rest) =>
    match first with
    | .obj kvs =>
      pyTypeName (.arr (first :: rest)) ++ " (list of dicts, first keys: " ++
        pyReprStrList ((kvs.map Prod.fst).take 5) ++ ")"
    | _ => pyTypeName (.arr (first :: rest))
  | _ => pyTypeName v

/-- The output line for one field of one sampled document. -/
def docFieldLine (k : String) (v : Json) : String :=
  "  " ++ k ++ ": " ++ typeLabel v

/-- The lines contributed by sampled document number `i` (0-based). -/
def docLines (i : Nat) (doc : List (String × Json)) : List String :=
  ("--- Document " ++ toString (i + 1) ++ " ---") ::
    (doc.map (fun kv => docFieldLine kv.1 kv.2) ++ [""])

/-- The full `lines` list built by `get_collection_schema` for a non-empty
sample. -/
def schemaLines (collectionName : String) (docs : List (List (String × Json))) :
    List String :=
  ("Collection: " ++ collectionName) ::
    ("Sample size: " ++ toString docs.length) :: "" ::
    (docs.enum.map (fun p => docLines p.1 p.2)).flatten

/-- `get_collection_schema(collection_name, sample_size=3)`; `sample` is the
`db[collection].find().limit(sample_size)` oracle, its documents given as
key/value lists (`doc.items()`). -/
def get_collection_schema
    (sample : String → Nat → Except String (List (List (String × Json))))
    (collectionName : String) (sampleSize : Nat) : String :=
  match sample collectionName sampleSize with
  | .error e =>
    "Error getting schema for " ++ pyq ++ collectionName ++ pyq ++ ": " ++ e
  | .ok docs =>
    if docs.isEmpty then
      "Collection " ++ pyq ++ collectionName ++ pyq ++
        " is empty or does not exist."
    else String.intercalate "\n" (schemaLines collectionName docs)

/-! ### Configuration constants (`src/config.py`) -/

def SCHEMA_RAG_COLLECTION : String := "schema_metadata"

def SCHEMA_RAG_INDEX_NAME : String := "schema_metadata_vector_index"

/-! ### Embeddings (`src/rag/embeddings.py`) -/

/-- `get_embedding(text)`: the Voyage call for a single text. Empty text or
missing `VOYAGE_API_KEY` (modelled as `apiKey = ""`, Python falsiness) short-
circuits to `[]`; a client exception yields `[]`; a successful call returns
`result.embeddings[0]` when `result.embeddings` is non-empty, else `[]`.
`embed` is the `vo.embed` oracle. -/
def get_embedding (apiKey : String)
    (embed : List String → Except String (List (List Int))) (text : String) :
    List Int :=
  if text == "" || apiKey == "" then []
  else
    match embed [text] with
    | .error _ => []
    | .ok embs =>
      match embs with
      | e :: _ => e
      | [] => []

/-- `get_embeddings(texts)`: the batch Voyage call. Empty input returns `[]`;
missing key or a client exception returns `[[]] * len(texts)`; a successful
call returns `list(result.embeddings)` when non-empty, else
`[[]] * len(texts)`. -/
def get_embeddings (apiKey : String)
    (embed : List String → Except String (List (List Int)))
    (texts : List String) : List (List Int) :=
  if texts.isEmpty || apiKey == "" then
    if !texts.isEmpty then List.replicate texts.length [] else []
  else
    match embed texts with
    | .error _ => List.replicate texts.length []
    | .ok embs => if !embs.isEmpty then embs else List.replicate texts.length []

/-! ### Retrieval (`src/rag/retrieval.py`) -/

/-- `_vector_search(db, collection_name, index_name, query_embedding,
limit)`: an empty embedding short-circuits to `[]`; otherwise the
`$vectorSearch` pipeline runs and any driver exception degrades to `[]`.
`aggregate` is the `db[collection].aggregate` oracle. -/
def vector_search (aggregate : String → List Json → Except String (List Json))
    (collectionName indexName : String) (queryEmbedding : List Int)
    (limit : Nat) : List Json :=
  if queryEmbedding.isEmpty then []
  else
    let pipeline : List Json :=
      [ .obj [("$vectorSearch", .obj
          [ ("index", .str indexName),
            ("path", .str "embedding"),
            ("queryVector", .arr (queryEmbedding.map Json.num)),
            ("numCandidates", .num (Int.ofNat (max (limit * 20) 100))),
            ("limit", .num (Int.ofNat limit)) ])],
        .obj [("$project", .obj [("embedding", .num 0)])] ]
    match aggregate collectionName pipeline with
    | .error _ => []
    | .ok docs => docs

/-- Python `a or dflt` on an optional lookup result: keeps `a`'s value when
present and truthy, otherwise falls back. -/
def orElseTruthy (a : Option Json) (dflt : Json) : Json :=
  match a with
  | some v => if v.truthy then v else dflt
  | none => dflt

/-- Python `str(v)` as used inside the retrieval f-string. Containers render
through `dumps`; the exact container text is a modelling constant (no
property below inspects it). -/
def pyStr : Json → String
  | .str s => s
  | .num n => toString n
  | .bool b => if b then "True" else "False"
  | .null => "None"
  | .oid s => s
  | .arr xs => dumps (.arr xs)
  | .obj kvs => dumps (.obj kvs)

/-- The `text = d.get("text") or d.get("description") or ""` selection. -/
def docContextText (d : Json) : Json :=
  orElseTruthy (d.get? "text") (orElseTruthy (d.get? "description") (.str ""))

/-- The `collection = d.get("collection_name") or d.get("collection") or ""`
selection. -/
def docContextCollection (d : Json) : Json :=
  orElseTruthy (d.get? "collection_name") (orElseTruthy (d.get? "collection") (.str ""))

/-- The bullet lines appended by `retrieve_schema_context`'s loop: one
`- [collection] text` line per document whose selected text is truthy. -/
def contextLines (docs : List Json) : List String :=
  docs.filterMap (fun d =>
    let text := docContextText d
    if text.truthy then
      some ("- [" ++ pyStr (docContextCollection d) ++ "] " ++ pyStr text)
    else none)

/-- The fixed instructional header of the schema-context block. -/
def schemaContextHeader : String :=
  "Relevant schema metadata (from vector search; use this to prioritize which collections/fields to use):"

/-- `retrieve_schema_context(user_query, top_k=8)`: embeds the query, runs
`_vector_search` on the schema-metadata collection, and formats the context
block; any empty intermediate result degrades to the empty string, and a
header with no bullet lines (`len(lines) > 2` fails) also returns `""`. -/
def retrieve_schema_context (apiKey : String)
    (embed : List String → Except String (List (List Int)))
    (aggregate : String → List Json → Except String (List Json))
    (userQuery : String) (topK : Nat) : String :=
  let queryEmbedding := get_embedding apiKey embed userQuery
  if queryEmbedding.isEmpty then ""
  else
    let docs := vector_search aggregate SCHEMA_RAG_COLLECTION
      SCHEMA_RAG_INDEX_NAME queryEmbedding topK
    if docs.isEmpty then ""
    else
      let lines := schemaContextHeader :: "" :: contextLines docs
      if lines.length > 2 then String.intercalate "\n" lines else ""

/-! ### Agent (`src/agent.py`) -/

/-- One entry of an `AIMessage`'s `tool_calls` list. -/
structure ToolCall where
  name : String
  args : String
deriving Repr, DecidableEq, Inhabited

/-- LangChain messages as the agent state holds them: `HumanMessage`,
`AIMessage` (with its `tool_calls` list) and tool-result messages. -/
inductive Message where
  | human (content : String)
  | ai (content : String) (toolCalls : List ToolCall)
  | tool (content : String)
deriving Repr, DecidableEq, Inhabited

/-- The scan inside `_get_last_user_text`, over the already-reversed list:
the first `HumanMessage` with truthy content wins; none found gives `""`. -/
def lastUserTextGo : List Message → String
  | [] => ""
  | .human c :: rest => if c != "" then c else lastUserTextGo rest
  | .ai _ _ :: rest => lastUserTextGo rest
  | .tool _ :: rest => lastUserTextGo rest

/-- `_get_last_user_text(messages)`: content of the most recent
`HumanMessage` with truthy content, else `""`. -/
def get_last_user_text (messages : List Message) : String :=
  lastUserTextGo messages.reverse

/-- `BASE_SYSTEM` from `src/agent.py`, verbatim (the doubled braces are part
of the Python string's value). -/
def BASE_SYSTEM : String :=
  "You are a MongoDB expert. You help users query the database named \"inferyx\" by understanding their natural language prompt and using the following tools:\n\n1. list_collections - Call this first to see which collections exist.\n2. get_collection_schema - Call this to see field names and types for one or more collections. For questions that need a JOIN between two collections, get schema for both collections to identify the local and foreign key fields for $lookup.\n3. execute_find - Run a simple find query on a single collection (filter and optional projection). Use when the user wants to list or filter documents from one collection.\n4. execute_aggregation - Run an aggregation pipeline. Use for: grouping, counting, sorting, or JOINing two collections with $lookup. For a join, use a stage like: \x7b\x7b\"$lookup\": \x7b\x7b\"from\": \"other_collection\", \"localField\": \"field_in_this_collection\", \"foreignField\": \"_id\", \"as\": \"joined_docs\"\x7d\x7d\x7d\x7d.\n\nAlways use the tools to answer. Use any relevant schema provided below to prioritize collections and query shape. Then call tools as needed. For \"join\" or \"combine data from two collections\", use execute_aggregation with a $lookup stage. Return the final tool result as the answer to the user."

/-- The retrieval query `agent_node` issues on one entry: `some` of the last
user text when that text is truthy (`retrieve_schema_context(user_text,
top_k=8) if user_text else ""`), `none` when retrieval is skipped. -/
def agent_node_query (messages : List Message) : Option String :=
  let userText := get_last_user_text messages
  if userText != "" then some userText else none

/-- The system prompt `agent_node` computes on one entry: `BASE_SYSTEM`,
plus `"\n\n" ++ ctx` when the retrieval context `ctx` is truthy. `retrieve`
is the behaviour of `retrieve_schema_context (·, top_k=8)`. -/
def agent_node_system (retrieve : String → String) (messages : List Message) :
    String :=
  let userText := get_last_user_text messages
  let schemaCtx := if userText != "" then retrieve userText else ""
  if schemaCtx != "" then BASE_SYSTEM ++ "\n\n" ++ schemaCtx else BASE_SYSTEM

/-- `hasattr(last, "tool_calls") and last.tool_calls`: only an `AIMessage`
with a non-empty `tool_calls` list routes to the tool node. -/
def hasToolCalls : Message → Bool
  | .ai _ tcs => !tcs.isEmpty
  | _ => false

/-- `route_after_agent(state)`: `true` means route to `"tools"`, `false`
means `__end__`; decided on the last message of the state. -/
def route_after_agent (messages : List Message) : Bool :=
  match messages.getLast? with
  | some m => hasToolCalls m
  | none => false

/-- A terminated run of the compiled graph: either the model produced a
final (tool-free) message, or the configured round budget ran out. -/
inductive RunOutcome where
  | finished (messages : List Message)
  | exceededBudget (messages : List Message)
deriving Repr, DecidableEq, Inhabited

/-- Modelled from the spec: the driver that repeatedly steps the graph built
by `_create_agent` is the LangGraph runtime, not code under `src/`; the spec
requires an implementation to bound it by a maximum number of agent rounds
(recommended default 10) and to stop with a designated bounded-runaway
outcome when the budget is exhausted. One round appends the model response
(`oracle`) and, when `route_after_agent` sends it to `"tools"`, the tool
results (`toolExec`, the `ToolNode`), then loops back to the agent node;
a tool-free response ends the run with `finished`. -/
def agent_loop (oracle : List Message → Message)
    (toolExec : List Message → List Message) :
    Nat → List Message → RunOutcome
  | 0, messages => .exceededBudget messages
  | n + 1, messages =>
    let response := oracle messages
    let messages' := messages ++ [response]
    if route_after_agent messages' then
      agent_loop oracle toolExec n (messages' ++ toolExec messages')
    else .finished messages'

/-- The scan at the end of `run_agent`, over the already-reversed message
list: the first `AIMessage` with an empty `tool_calls` list decides the
answer (`m.content or final_text`, so empty content keeps the fallback);
no such message gives the fallback. -/
def extractAnswerGo : List Message → String
  | [] => "No response generated."
  | .ai c tcs :: rest =>
    if tcs.isEmpty then (if c != "" then c else "No response generated.")
    else extractAnswerGo rest
  | .human _ :: rest => extractAnswerGo rest
  | .tool _ :: rest => extractAnswerGo rest

/-- The answer-extraction loop of `run_agent` (its `for m in
reversed(messages)` tail): pure in the message list. -/
def extract_answer (messages : List Message) : String :=
  extractAnswerGo messages.reverse

/-- `run_agent(user_prompt)`: seeds the state with one `HumanMessage`, runs
the (spec-bounded) loop, and extracts `(final_text, messages)` from the
final state. -/
def run_agent (oracle : List Message → Message)
    (toolExec : List Message → List Message) (maxRounds : Nat)
    (userPrompt : String) : String × List Message :=
  match agent_loop oracle toolExec maxRounds [Message.human userPrompt] with
  | .finished messages => (extract_answer messages, messages)
  | .exceededBudget messages => (extract_answer messages, messages)

/-! ### C2: pipeline auto-limit -/

/-- A pipeline stage that is a JSON object (a Python dict). -/
def IsObjStage (s : Json) : Prop := ∃ kvs, s = Json.obj kvs

/-- The stage carries a `$limit` key holding a non-`None` value (the
condition `s.get("$limit") is not None`). -/
def HasNonNullLimit (s : Json) : Prop :=
  ∃ v, s.get? "$limit" = some v ∧ jsonIsNull v = false

theorem anyHasLimit_eq_false : ∀ {stages : List Json},
    (∀ s ∈ stages, IsObjStage s) → (∀ s ∈ stages, ¬ HasNonNullLimit s) →
    anyHasLimit stages = .ok false := by
  intro stages
  induction stages with
  | nil => intro _ _; rfl
  | cons s rest ih =>
    intro hobj hnone
    obtain ⟨kvs, rfl⟩ := hobj s (List.mem_cons_self _ _)
    have hrec := ih (fun t ht => hobj t (List.mem_cons_of_mem _ ht))
      (fun t ht => hnone t (List.mem_cons_of_mem _ ht))
    cases hfind : (Json.obj kvs).get? "$limit" with
    | none => simpa [anyHasLimit, hfind] using hrec
    | some v =>
      cases hnull : jsonIsNull v with
      | true => simpa [anyHasLimit, hfind, hnull] using hrec
      | false =>
        exact absurd ⟨v, hfind, hnull⟩ (hnone _ (List.mem_cons_self _ _))

theorem anyHasLimit_eq_true : ∀ {stages : List Json},
    (∀ s ∈ stages, IsObjStage s) → (∃ s ∈ stages, HasNonNullLimit s) →
    anyHasLimit stages = .ok true := by
  intro stages
  induction stages with
  | nil => rintro _ ⟨s, hs, _⟩; cases hs
  | cons s rest ih =>
    rintro hobj ⟨t, ht, hlim⟩
    obtain ⟨kvs, rfl⟩ := hobj s (List.mem_cons_self _ _)
    have hobjrest := fun u hu => hobj u (List.mem_cons_of_mem _ hu)
    rcases List.mem_cons.mp ht with rfl | htrest
    · obtain ⟨v, hfind, hnull⟩ := hlim
      simp [anyHasLimit, hfind, hnull]
    · cases hfind : (Json.obj kvs).get? "$limit" with
      | none => simpa [anyHasLimit, hfind] using ih hobjrest ⟨t, htrest, hlim⟩
      | some v =>
        cases hnull : jsonIsNull v with
        | true => simpa [anyHasLimit, hfind, hnull] using ih hobjrest ⟨t, htrest, hlim⟩
        | false => simp [anyHasLimit, hfind, hnull]

/-- C2 (amended): for every successfully JSON-decoded pipeline that is a
list of stage objects none of which has a `$limit` key with non-null value,
`execute_aggregation` appends exactly one `{"$limit": limit_results}` stage
after all existing stages before executing the pipeline, for every nonzero
`limit_results` — with `limit_results = 0` (Python-falsy) the pipeline is
executed untouched; a pipeline some stage of which holds a non-null `$limit`
is executed untouched; and a decoded value that is not a list is rejected
with the explicit text error rather than executed. -/
theorem execute_aggregation_spec :
    (∀ (parse : String → Except String Json)
       (aggregate : String → List Json → Except String (List Json))
       (name pj : String) (lr : Int) (stages : List Json),
       parse pj = .ok (.arr stages) → (∀ s ∈ stages, IsObjStage s) →
       ((∀ s ∈ stages, ¬ HasNonNullLimit s) → lr ≠ 0 →
         execute_aggregation parse aggregate name pj lr =
           renderAggResult (aggregate name
             (stages ++ [Json.obj [("$limit", Json.num lr)]]))) ∧
       ((∀ s ∈ stages, ¬ HasNonNullLimit s) → lr = 0 →
         execute_aggregation parse aggregate name pj lr =
           renderAggResult (aggregate name stages)) ∧
       ((∃ s ∈ stages, HasNonNullLimit s) →
         execute_aggregation parse aggregate name pj lr =
           renderAggResult (aggregate name stages))) ∧
    (∀ (parse : String → Except String Json)
       (aggregate : String → List Json → Except String (List Json))
       (name pj : String) (lr : Int) (p : Json),
       parse pj = .ok p → (∀ xs, p ≠ Json.arr xs) →
       execute_aggregation parse aggregate name pj lr =
         "pipeline_json must be a JSON array of stages.") := by
  constructor
  · intro parse aggregate name pj lr stages hparse hobj
    refine ⟨fun hnone hlr => ?_, fun hnone hlr => ?_, fun hsome => ?_⟩
    · simp [execute_aggregation, hparse, anyHasLimit_eq_false hobj hnone, hlr]
    · simp [execute_aggregation, hparse, anyHasLimit_eq_false hobj hnone, hlr]
    · simp [execute_aggregation, hparse, anyHasLimit_eq_true hobj hsome]
  · intro parse aggregate name pj lr p hparse hna
    cases p with
    | arr xs => exact absurd rfl (hna xs)
    | null => simp [execute_aggregation, hparse]
    | bool b => simp [execute_aggregation, hparse]
    | num n => simp [execute_aggregation, hparse]
    | str s => simp [execute_aggregation, hparse]
    | oid s => simp [execute_aggregation, hparse]
    | obj kvs => simp [execute_aggregation, hparse]

/-- A parser decoding any input to the empty pipeline, and a driver echoing
the pipeline it is handed; used to observe which pipeline gets executed. -/
def cexParse : String → Except String Json := fun _ => .ok (.arr [])

def cexEcho : String → List Json → Except String (List Json) :=
  fun _ pl => .ok pl

/-- C2 counterexample: with `limit_results = 0` and the decoded pipeline
`[]` (no stage has a `$limit` key), `execute_aggregation` executes the
pipeline untouched instead of appending the `{"$limit": 0}` stage the claim
requires for every value of `limit_results`. -/
theorem execute_aggregation_limit_zero_cex :
    execute_aggregation cexParse cexEcho "c" "[]" 0 =
      renderAggResult (cexEcho "c" []) ∧
    execute_aggregation cexParse cexEcho "c" "[]" 0 ≠
      renderAggResult (cexEcho "c" [Json.obj [("$limit", Json.num 0)]]) := by
  exact ⟨rfl, by decide⟩

def wParse : String → Except String Json :=
  fun _ => .ok (.arr [Json.obj [("$match", Json.obj [])]])

def wAgg : String → List Json → Except String (List Json) := fun _ pl => .ok pl

/-- Witness for `execute_aggregation_spec` at a concrete one-stage pipeline
with the default `limit_results = 100`. -/
theorem execute_aggregation_spec_witness :
    execute_aggregation wParse wAgg "c" "p" 100 =
      renderAggResult (wAgg "c"
        ([Json.obj [("$match", Json.obj [])]] ++
          [Json.obj [("$limit", Json.num 100)]])) :=
  (execute_aggregation_spec.1 wParse wAgg "c" "p" 100
      [Json.obj [("$match", Json.obj [])]] rfl
      (by intro s hs; rw [List.mem_singleton] at hs; exact ⟨_, hs⟩)).1
    (by
      intro s hs
      rw [List.mem_singleton] at hs
      subst hs
      rintro ⟨v, hv, _⟩
      simp [show (Json.obj [("$match", Json.obj [])]).get? "$limit" = none
        from rfl] at hv)
    (by decide)

/-! ### C3: retrieval degrade law -/

/-- C3: whenever the embedding function returns no vector for the query —
in particular when the API key is absent or the embedding client errors —
`retrieve_schema_context` returns exactly the empty string (it is a total
function, so it never raises), and in that case the system prompt the agent
node computes is exactly `BASE_SYSTEM`, with no context block appended. -/
theorem retrieval_degrade :
    ∀ (apiKey : String) (embed : List String → Except String (List (List Int)))
      (aggregate : String → List Json → Except String (List Json))
      (q : String) (topK : Nat) (messages : List Message),
      (get_embedding apiKey embed q = [] →
        retrieve_schema_context apiKey embed aggregate q topK = "") ∧
      (apiKey = "" → get_embedding apiKey embed q = []) ∧
      (∀ e, embed [q] = .error e → get_embedding apiKey embed q = []) ∧
      (get_embedding apiKey embed (get_last_user_text messages) = [] →
        agent_node_system
          (fun t => retrieve_schema_context apiKey embed aggregate t 8)
          messages = BASE_SYSTEM) := by
  intro apiKey embed aggregate q topK messages
  refine ⟨fun h => ?_, fun h => ?_, fun e he => ?_, fun h => ?_⟩
  · simp [retrieve_schema_context, h]
  · simp [get_embedding, h]
  · unfold get_embedding
    split
    · rfl
    · simp [he]
  · unfold agent_node_system
    by_cases hu : get_last_user_text messages != ""
    · have hctx : retrieve_schema_context apiKey embed aggregate
          (get_last_user_text messages) 8 = "" := by
        simp [retrieve_schema_context, h]
      simp [hu, hctx]
    · simp [hu]

def wEmbErr : List String → Except String (List (List Int)) :=
  fun _ => .error "missing credentials"

def wAggEmpty : String → List Json → Except String (List Json) :=
  fun _ _ => .ok []

/-- Witness for `retrieval_degrade`: absent API key on the query `hi`. -/
theorem retrieval_degrade_witness :
    retrieve_schema_context "" wEmbErr wAggEmpty "hi" 8 = "" ∧
    agent_node_system (fun t => retrieve_schema_context "" wEmbErr wAggEmpty t 8)
      [Message.human "hi"] = BASE_SYSTEM :=
  ⟨(retrieval_degrade "" wEmbErr wAggEmpty "hi" 8 []).1 rfl,
    (retrieval_degrade "" wEmbErr wAggEmpty "hi" 8 [Message.human "hi"]).2.2.2 rfl⟩

/-! ### C4: answer extraction -/

/-- An `AIMessage` whose `tool_calls` list is empty: the terminal messages
the extractor scans for. -/
def isFinalAI : Message → Bool
  | .ai _ tcs => tcs.isEmpty
  | _ => false

theorem extractAnswerGo_append {l rest : List Message}
    (h : ∀ m ∈ l, isFinalAI m = false) :
    extractAnswerGo (l ++ rest) = extractAnswerGo rest := by
  induction l with
  | nil => rfl
  | cons m l ih =>
    have hm := h m (List.mem_cons_self _ _)
    have hrec := ih (fun t ht => h t (List.mem_cons_of_mem _ ht))
    cases m with
    | human c => simpa [extractAnswerGo] using hrec
    | tool c => simpa [extractAnswerGo] using hrec
    | ai c tcs =>
      have htcs : tcs.isEmpty = false := by simpa [isFinalAI] using hm
      simpa [extractAnswerGo, htcs] using hrec

/-- C4 counterexample: on the message list `[AIMessage(content="",
tool_calls=[])]` the extraction returns the fallback string, not that
message's (empty) text as the claim requires (`m.content or final_text`
keeps the fallback on empty content). -/
theorem extract_answer_empty_content_cex :
    extract_answer [Message.ai "" []] ≠ "" ∧
    extract_answer [Message.ai "" []] = "No response generated." := by decide

/-- C4 (amended): for every final message list, the extraction at the end of
`run_agent` scans from the end backward for the most recent model-authored
message whose tool-request list is empty and returns its text when that text
is non-empty, the fixed fallback `No response generated.` when that text is
empty; if no such message exists it returns the fallback. The extraction is
a pure function of the message list. -/
theorem extract_answer_spec :
    (∀ (pre : List Message) (c : String) (post : List Message),
      (∀ m ∈ post, isFinalAI m = false) →
      extract_answer (pre ++ Message.ai c [] :: post) =
        if c != "" then c else "No response generated.") ∧
    (∀ messages : List Message, (∀ m ∈ messages, isFinalAI m = false) →
      extract_answer messages = "No response generated.") := by
  constructor
  · intro pre c post hpost
    unfold extract_answer
    have h1 : ∀ m ∈ post.reverse, isFinalAI m = false :=
      fun m hm => hpost m (List.mem_reverse.mp hm)
    calc extractAnswerGo ((pre ++ Message.ai c [] :: post).reverse)
        = extractAnswerGo (post.reverse ++ (Message.ai c [] :: pre.reverse)) := by
          rw [List.reverse_append, List.reverse_cons]
          simp
      _ = extractAnswerGo (Message.ai c [] :: pre.reverse) :=
          extractAnswerGo_append h1
      _ = if c != "" then c else "No response generated." := by
          simp [extractAnswerGo]
  · intro messages h
    unfold extract_answer
    have h1 : ∀ m ∈ messages.reverse, isFinalAI m = false :=
      fun m hm => h m (List.mem_reverse.mp hm)
    calc extractAnswerGo messages.reverse
        = extractAnswerGo (messages.reverse ++ []) := by rw [List.append_nil]
      _ = extractAnswerGo [] := extractAnswerGo_append h1
      _ = "No response generated." := rfl

/-- Witness for `extract_answer_spec`: a single terminal message with
non-empty text. -/
theorem extract_answer_spec_witness :
    extract_answer [Message.ai "hello" []] = "hello" := by
  have h := extract_answer_spec.1 [] "hello" []
    (by intro m hm; exact absurd hm (List.not_mem_nil m))
  simpa using h

/-! ### C5: system-prompt anchoring -/

/-- A `HumanMessage`. -/
def isHumanMsg : Message → Bool
  | .human _ => true
  | _ => false

theorem lastUserTextGo_append {l rest : List Message}
    (h : ∀ m ∈ l, isHumanMsg m = false) :
    lastUserTextGo (l ++ rest) = lastUserTextGo rest := by
  induction l with
  | nil => rfl
  | cons m l ih =>
    have hm := h m (List.mem_cons_self _ _)
    have hrec := ih (fun t ht => h t (List.mem_cons_of_mem _ ht))
    cases m with
    | human c => simp [isHumanMsg] at hm
    | ai c tcs => simpa [lastUserTextGo] using hrec
    | tool c => simpa [lastUserTextGo] using hrec

theorem get_last_user_text_anchor {q : String} {rest : List Message}
    (h : ∀ m ∈ rest, isHumanMsg m = false) :
    get_last_user_text (Message.human q :: rest) = q := by
  unfold get_last_user_text
  rw [List.reverse_cons,
    lastUserTextGo_append (fun m hm => h m (List.mem_reverse.mp hm))]
  by_cases hq : q = ""
  · subst hq; rfl
  · simp [lastUserTextGo, hq]

/-- C5: system-prompt anchoring — for a state seeded with one `HumanMessage`
to which only model and tool messages were appended, the agent node's last
user text equals the original question on every entry; consequently the
retrieval query (when issued) is exactly the original question and the
rebuilt system prompt coincides with the first round's. -/
theorem agent_node_anchoring :
    ∀ (q : String) (rest : List Message) (retrieve : String → String),
      (∀ m ∈ rest, isHumanMsg m = false) →
      get_last_user_text (Message.human q :: rest) = q ∧
      agent_node_query (Message.human q :: rest) =
        (if q != "" then some q else none) ∧
      agent_node_system retrieve (Message.human q :: rest) =
        agent_node_system retrieve [Message.human q] := by
  intro q rest retrieve h
  have hq := get_last_user_text_anchor (q := q) h
  have hq0 : get_last_user_text [Message.human q] = q :=
    get_last_user_text_anchor
      (by intro m hm; exact absurd hm (List.not_mem_nil m))
  refine ⟨hq, ?_, ?_⟩
  · simp [agent_node_query, hq]
  · simp [agent_node_system, hq, hq0]

/-- Witness for `agent_node_anchoring`: one user question followed by a
tool-requesting model message and a tool result. -/
theorem agent_node_anchoring_witness :
    get_last_user_text
      [Message.human "list users", Message.ai "x" [⟨"t", "a"⟩],
        Message.tool "r"] = "list users" :=
  (agent_node_anchoring "list users"
    [Message.ai "x" [⟨"t", "a"⟩], Message.tool "r"]
    (fun _ => "") (by decide)).1

/-! ### C1: round-cap law -/

theorem route_after_agent_append (ms : List Message) (r : Message) :
    route_after_agent (ms ++ [r]) = hasToolCalls r := by
  simp [route_after_agent, List.getLast?_concat]

/-- C1: against an oracle that returns a tool-requesting message on every
invocation (never terminating naturally), the bounded agent loop returns,
for every configured round budget and start state, the designated
bounded-runaway outcome — it cannot run past the budget or hang. -/
theorem agent_loop_round_cap :
    ∀ (oracle : List Message → Message) (toolExec : List Message → List Message),
      (∀ ms, hasToolCalls (oracle ms) = true) →
      ∀ (maxRounds : Nat) (messages : List Message),
        ∃ ms', agent_loop oracle toolExec maxRounds messages =
          .exceededBudget ms' := by
  intro oracle toolExec h maxRounds
  induction maxRounds with
  | zero => intro messages; exact ⟨messages, rfl⟩
  | succ n ih =>
    intro messages
    have hr : route_after_agent (messages ++ [oracle messages]) = true := by
      rw [route_after_agent_append]; exact h messages
    obtain ⟨ms', hms'⟩ := ih (messages ++
      oracle messages :: toolExec (messages ++ [oracle messages]))
    exact ⟨ms', by simp [agent_loop, hr, hms']⟩

def alwaysToolOracle : List Message → Message :=
  fun _ => Message.ai "" [⟨"list_collections", ""⟩]

def constToolExec : List Message → List Message := fun _ => [Message.tool "ok"]

/-- Witness for `agent_loop_round_cap` at the recommended default budget of
10 rounds. -/
theorem agent_loop_round_cap_witness :
    ∃ ms', agent_loop alwaysToolOracle constToolExec 10 [Message.human "q"] =
      .exceededBudget ms' :=
  agent_loop_round_cap alwaysToolOracle constToolExec (fun _ => rfl) 10
    [Message.human "q"]

/-! ### C7: describe-schema output shape -/

theorem docFieldLine_mem_enumFrom :
    ∀ (i : Nat) (docs : List (List (String × Json)))
      (doc : List (String × Json)), doc ∈ docs → ∀ kv ∈ doc,
      docFieldLine kv.1 kv.2 ∈
        ((List.enumFrom i docs).map (fun r => docLines r.1 r.2)).flatten := by
  intro i docs
  induction docs generalizing i with
  | nil => intro doc h; exact absurd h (List.not_mem_nil doc)
  | cons d ds ih =>
    intro doc hdoc kv hkv
    simp only [List.enumFrom, List.map_cons, List.flatten_cons]
    rcases List.mem_cons.mp hdoc with rfl | hmem
    · apply List.mem_append_left
      unfold docLines
      exact List.mem_cons_of_mem _
        (List.mem_append_left _ (List.mem_map.mpr ⟨kv, hkv, rfl⟩))
    · exact List.mem_append_right _ (ih (i + 1) doc hmem kv hkv)

/-- C7: for a non-empty sample, `get_collection_schema` returns the joined
text block whose lines contain, per sampled document, one `  field: label`
line per field; the label of an object-valued field carries the preview of
its first at most 8 nested keys, and the label of a non-empty
array-of-objects field carries the `list of dicts` marker (with the head
element's first at most 5 keys); an empty or absent collection yields the
explicit text message (the embedding is total, so no path raises). -/
theorem get_collection_schema_spec :
    (∀ (sample : String → Nat → Except String (List (List (String × Json))))
       (name : String) (size : Nat),
       sample name size = .ok [] →
       get_collection_schema sample name size =
         "Collection " ++ pyq ++ name ++ pyq ++ " is empty or does not exist.") ∧
    (∀ (sample : String → Nat → Except String (List (List (String × Json))))
       (name : String) (size : Nat) (docs : List (List (String × Json))),
       sample name size = .ok docs → docs ≠ [] →
       get_collection_schema sample name size =
         String.intercalate "\n" (schemaLines name docs)) ∧
    (∀ (name : String) (docs : List (List (String × Json)))
       (doc : List (String × Json)), doc ∈ docs → ∀ kv ∈ doc,
       docFieldLine kv.1 kv.2 ∈ schemaLines name docs) ∧
    (∀ kvs : List (String × Json), typeLabel (.obj kvs) =
       "dict (keys: " ++ pyReprStrList ((kvs.map Prod.fst).take 8) ++ ")") ∧
    (∀ (kvs : List (String × Json)) (rest : List Json),
       typeLabel (.arr (Json.obj kvs :: rest)) =
         "list (list of dicts, first keys: " ++
           pyReprStrList ((kvs.map Prod.fst).take 5) ++ ")") := by
  refine ⟨?_, ?_, ?_, fun kvs => rfl, fun kvs rest => rfl⟩
  · intro sample name size h
    simp [get_collection_schema, h]
  · intro sample name size docs h hne
    simp [get_collection_schema, h, hne]
  · intro name docs doc hdoc kv hkv
    unfold schemaLines
    refine List.mem_cons_of_mem _ (List.mem_cons_of_mem _
      (List.mem_cons_of_mem _ ?_))
    exact docFieldLine_mem_enumFrom 0 docs doc hdoc kv hkv

def wSampleEmpty : String → Nat → Except String (List (List (String × Json))) :=
  fun _ _ => .ok []

/-- Witness for `get_collection_schema_spec`: an empty sample. -/
theorem get_collection_schema_spec_witness :
    get_collection_schema wSampleEmpty "users" 3 =
      "Collection " ++ pyq ++ "users" ++ pyq ++ " is empty or does not exist." :=
  get_collection_schema_spec.1 wSampleEmpty "users" 3 rfl

/-! ### C8: tool failures are data -/

/-- C8: each tool is a total function into `String` (the embedding of the
enclosing `try`/`except` — nothing escapes to the caller), and on every
failure path it returns the formatted failure text: a driver error in
`list_collections`; a JSON parse error of the filter or projection in
`execute_find` (covering the malformed `{"status": active}` scenario);
a driver error in `execute_find`; a JSON parse error in
`execute_aggregation`; and a driver error in `get_collection_schema`. -/
theorem tool_failures_are_data :
    (∀ e, list_collections (.error e) = "Error listing collections: " ++ e) ∧
    (∀ (parse : String → Except String Json)
       (find : String → Json → Option Json → Int → Except String (List Json))
       (name fj pj : String) (lim : Int) (e : String),
       pyStrip fj ≠ "" → parse fj = .error e →
       execute_find parse find name fj pj lim =
         "Invalid JSON in filter or projection: " ++ e) ∧
    (∀ (parse : String → Except String Json)
       (find : String → Json → Option Json → Int → Except String (List Json))
       (name fj pj : String) (lim : Int) (filt proj : Json) (e : String),
       (if pyStrip fj != "" then parse fj else .ok (.obj [])) = .ok filt →
       (if pyStrip pj != "" then parse pj else .ok (.obj [])) = .ok proj →
       find name filt (if proj.truthy then some proj else none) lim = .error e →
       execute_find parse find name fj pj lim = "Error executing find: " ++ e) ∧
    (∀ (parse : String → Except String Json)
       (aggregate : String → List Json → Except String (List Json))
       (name pj : String) (lr : Int) (e : String), parse pj = .error e →
       execute_aggregation parse aggregate name pj lr =
         "Invalid JSON pipeline: " ++ e) ∧
    (∀ (sample : String → Nat → Except String (List (List (String × Json))))
       (name : String) (size : Nat) (e : String), sample name size = .error e →
       get_collection_schema sample name size =
         "Error getting schema for " ++ pyq ++ name ++ pyq ++ ": " ++ e) := by
  refine ⟨fun e => rfl, ?_, ?_, ?_, ?_⟩
  · intro parse find name fj pj lim e htrim hparse
    simp [execute_find, htrim, hparse]
  · intro parse find name fj pj lim filt proj e hf hp hfind
    unfold execute_find
    simp only [hf, hp, hfind]
  · intro parse aggregate name pj lr e hparse
    simp [execute_aggregation, hparse]
  · intro sample name size e h
    simp [get_collection_schema, h]

/-- The malformed filter from the spec's example scenario,
`{"status": active}`. -/
def wBadFilter : String := "\x7b\"status\": active\x7d"

def wBadParse : String → Except String Json :=
  fun s =>
    if s = wBadFilter then .error "Expecting value: line 1 column 12 (char 11)"
    else .ok .null

def wFind : String → Json → Option Json → Int → Except String (List Json) :=
  fun _ _ _ _ => .ok []

/-- Witness for `tool_failures_are_data`: the malformed filter yields the
textual parse-error message. -/
theorem tool_failures_are_data_witness :
    execute_find wBadParse wFind "users" wBadFilter "" 50 =
      "Invalid JSON in filter or projection: " ++
        "Expecting value: line 1 column 12 (char 11)" :=
  tool_failures_are_data.2.1 wBadParse wFind "users" wBadFilter "" 50
    "Expecting value: line 1 column 12 (char 11)" (by decide)
    (by simp [wBadParse])

/-! ### C9: length preservation of batch embedding -/

/-- C9: `get_embeddings` returns a list of exactly the input's length —
assuming only that a successful non-empty client response is one vector per
input text — and in particular returns `len(texts)` empty vectors when the
API key is missing or the client errors, and `[]` for empty input. -/
theorem get_embeddings_length :
    ∀ (apiKey : String) (embed : List String → Except String (List (List Int)))
      (texts : List String),
      ((∀ embs, embed texts = .ok embs → embs ≠ [] →
          embs.length = texts.length) →
        (get_embeddings apiKey embed texts).length = texts.length) ∧
      (get_embeddings apiKey embed [] = []) ∧
      (texts ≠ [] → apiKey = "" →
        get_embeddings apiKey embed texts = List.replicate texts.length []) ∧
      (∀ e, embed texts = .error e →
        get_embeddings apiKey embed texts = List.replicate texts.length []) := by
  intro apiKey embed texts
  refine ⟨fun h => ?_, rfl, fun hne hkey => ?_, fun e he => ?_⟩
  · unfold get_embeddings
    by_cases ht : texts.isEmpty
    · have : texts = [] := List.isEmpty_iff.mp ht
      subst this; simp
    · by_cases hk : apiKey == ""
      · simp [ht, hk]
      · cases hemb : embed texts with
        | error e => simp [ht, hk, hemb]
        | ok embs =>
          by_cases hes : embs.isEmpty
          · simp [ht, hk, hemb, hes]
          · have hlen := h embs hemb
              (by intro hnil; subst hnil; exact hes rfl)
            simp [ht, hk, hemb, hes, hlen]
  · subst hkey
    have ht : texts.isEmpty = false := by
      cases htx : texts.isEmpty
      · rfl
      · exact absurd (List.isEmpty_iff.mp htx) hne
    simp [get_embeddings, ht]
  · by_cases ht : texts.isEmpty
    · have : texts = [] := List.isEmpty_iff.mp ht
      subst this; simp [get_embeddings]
    · by_cases hk : apiKey == ""
      · simp [get_embeddings, ht, hk]
      · simp [get_embeddings, ht, hk, he]

def wEmbOk : List String → Except String (List (List Int)) :=
  fun ts => .ok (ts.map (fun _ => [0]))

/-- Witness for `get_embeddings_length`: a two-text batch with a one-vector-
per-text client. -/
theorem get_embeddings_length_witness :
    (get_embeddings "key" wEmbOk ["a", "b"]).length = 2 := by
  have h := (get_embeddings_length "key" wEmbOk ["a", "b"]).1
    (by
      intro embs hemb hne
      simp only [wEmbOk] at hemb
      injection hemb with h2
      subst h2
      rfl)
  simpa using h

/-! ### C10: no header-only context block -/

theorem contextLines_eq_nil {docs : List Json}
    (h : ∀ d ∈ docs, (docContextText d).truthy = false) :
    contextLines docs = [] := by
  unfold contextLines
  rw [List.filterMap_eq_nil_iff]
  intro d hd
  simp [h d hd]

/-- C10: when no retrieved document has a truthy `text` or `description`
field, `retrieve_schema_context` returns exactly the empty string — never a
block consisting only of the fixed instructional header. -/
theorem no_header_only_context :
    ∀ (apiKey : String) (embed : List String → Except String (List (List Int)))
      (aggregate : String → List Json → Except String (List Json))
      (q : String) (topK : Nat),
      (∀ d ∈ vector_search aggregate SCHEMA_RAG_COLLECTION
          SCHEMA_RAG_INDEX_NAME (get_embedding apiKey embed q) topK,
        (docContextText d).truthy = false) →
      retrieve_schema_context apiKey embed aggregate q topK = "" := by
  intro apiKey embed aggregate q topK h
  unfold retrieve_schema_context
  by_cases hemb : (get_embedding apiKey embed q).isEmpty
  · simp [hemb]
  · have hctx := contextLines_eq_nil h
    by_cases hdocs : (vector_search aggregate SCHEMA_RAG_COLLECTION
        SCHEMA_RAG_INDEX_NAME (get_embedding apiKey embed q) topK).isEmpty
    · simp [hemb, hdocs]
    · simp [hemb, hdocs, hctx]

def wEmbOne : List String → Except String (List (List Int)) :=
  fun _ => .ok [[1]]

def wAggNoText : String → List Json → Except String (List Json) :=
  fun _ _ => .ok [Json.obj [("collection_name", Json.str "users")]]

/-- Witness for `no_header_only_context`: one retrieved document carrying
neither `text` nor `description`. -/
theorem no_header_only_context_witness :
    retrieve_schema_context "key" wEmbOne wAggNoText "q" 8 = "" :=
  no_header_only_context "key" wEmbOne wAggNoText "q" 8 (by decide)
